import Mathlib

/-!
Verification of the scene-graph flattening and glTF/GLB serialization engine
of the IFC-to-glTF converter (`src/_test/LoadFileExample/src/ifc2gltf.cpp`).

The C++ code is shallowly embedded here:
* float/double values are modelled exactly by rationals (`ℚ`);
* `std::vector<float>` flat arrays become `List ℚ`, index arrays `List ℕ`;
* the external collaborator's `carve::math::Matrix` transform is modelled as an
  opaque vertex transformation `Vec3 → Vec3` (the converter only ever applies
  it to vertices, never inspects it);
* the shape-data tree (`ProductShapeData` / `ItemShapeData`) is modelled by
  mutually inductive trees mirroring the fields the converter reads.
-/

namespace Ifc2Gltf

/-- A 3-D point or direction (one vertex, one normal, or a bounds corner). -/
structure Vec3 where
  x : ℚ
  y : ℚ
  z : ℚ
deriving DecidableEq, Repr

/-- `GeometryData` from ifc2gltf.cpp: flat vertex / normal / texcoord arrays,
uint32 triangle indices and the axis-aligned bounds, which are default
initialized to the zero vector.  The `materialId` string is not modelled:
no claim mentions it and it never influences the emitted arrays. -/
structure GeometryData where
  vertices : List ℚ
  normals : List ℚ
  texCoords : List ℚ
  indices : List ℕ
  minBounds : Vec3
  maxBounds : Vec3
deriving DecidableEq, Repr

/-- A default-constructed `GeometryData` (all arrays empty, bounds zero). -/
def emptyGeom : GeometryData :=
  ⟨[], [], [], [], ⟨0, 0, 0⟩, ⟨0, 0, 0⟩⟩

/-- One face of a carve mesh as the converter reads it: the ordered vertex
loop collected from the half-edge cycle, plus the face plane normal. -/
structure Face where
  loop : List Vec3
  normal : Vec3

/-- One carve mesh: the list of its faces. -/
abbrev Mesh := List Face

/-- One `carve::mesh::MeshSet<3>`: its list of meshes. -/
abbrev MeshSet := List Mesh

mutual

/-- `ItemShapeData` as read by the converter: closed mesh sets
(`m_meshsets`), open mesh sets (`m_meshsets_open`) and child items
(`m_child_items`). -/
inductive ItemShapeData : Type where
  | mk (meshsets : List MeshSet) (meshsetsOpen : List MeshSet)
      (childItems : ItemList) : ItemShapeData

/-- List of child `ItemShapeData` (mutually inductive for easy recursion). -/
inductive ItemList : Type where
  | nil : ItemList
  | cons (head : ItemShapeData) (tail : ItemList) : ItemList

end

mutual

/-- `ProductShapeData` as read by the converter: the entry's own transform
(`getTransform()`), its geometric items and its child elements. -/
inductive ProductShapeData : Type where
  | mk (transform : Vec3 → Vec3) (items : ItemList)
      (children : ProductList) : ProductShapeData

/-- List of child `ProductShapeData`. -/
inductive ProductList : Type where
  | nil : ProductList
  | cons (head : ProductShapeData) (tail : ProductList) : ProductList

end

/-- The mesh-accumulator step of `ExtractMeshSet`: appends one triangle's
three (already transformed) vertices, three copies of the face normal, three
zero texture-coordinate pairs, and the three fresh indices
`base, base+1, base+2` where `base` is the current vertex count. -/
def appendTriangle (g : GeometryData) (p0 p1 p2 nrm : Vec3) : GeometryData :=
  let base := g.vertices.length / 3
  { g with
    vertices := g.vertices ++
      [p0.x, p0.y, p0.z, p1.x, p1.y, p1.z, p2.x, p2.y, p2.z],
    normals := g.normals ++
      [nrm.x, nrm.y, nrm.z, nrm.x, nrm.y, nrm.z, nrm.x, nrm.y, nrm.z],
    texCoords := g.texCoords ++ [0, 0, 0, 0, 0, 0],
    indices := g.indices ++ [base, base + 1, base + 2] }

/-- Consecutive pairs of a list: `pairsOf [a,b,c] = [(a,b),(b,c)]`.  This is
the sequence of `(v_i, v_{i+1})` pairs visited by the fan-triangulation loop
`for (i = 1; i < n-1; ++i)` when applied to the tail of the vertex loop. -/
def pairsOf : List Vec3 → List (Vec3 × Vec3)
  | a :: b :: rest => (a, b) :: pairsOf (b :: rest)
  | _ => []

/-- The fan-triangulation loop body over the collected pairs: for each pair
`(vi, vi1)` append the triangle `(t v0, t vi, t vi1)` with the face normal. -/
def extractFanPairs (t : Vec3 → Vec3) (v0 nrm : Vec3) :
    List (Vec3 × Vec3) → GeometryData → GeometryData
  | [], g => g
  | (a, b) :: rest, g =>
      extractFanPairs t v0 nrm rest (appendTriangle g (t v0) (t a) (t b) nrm)

/-- Per-face part of `ExtractMeshSet`: faces with fewer than 3 loop vertices
are skipped (`face->n_edges < 3` guard); otherwise the loop is fan
triangulated from its first vertex, each vertex transformed by the local
transform before being appended. -/
def extractFace (t : Vec3 → Vec3) (f : Face) (g : GeometryData) :
    GeometryData :=
  match f.loop with
  | v0 :: v1 :: v2 :: rest =>
      extractFanPairs t v0 f.normal (pairsOf (v1 :: v2 :: rest)) g
  | _ => g

/-- Fold of `extractFace` over the faces of one mesh. -/
def extractFaces (t : Vec3 → Vec3) : List Face → GeometryData → GeometryData
  | [], g => g
  | f :: rest, g => extractFaces t rest (extractFace t f g)

/-- `ExtractMeshSet`: iterate over the meshes of a mesh set. -/
def extractMeshSet (t : Vec3 → Vec3) : MeshSet → GeometryData → GeometryData
  | [], g => g
  | m :: rest, g => extractMeshSet t rest (extractFaces t m g)

/-- Fold of `extractMeshSet` over a list of mesh sets (the two loops over
`m_meshsets` and `m_meshsets_open` in `ExtractGeometricItems`). -/
def extractMeshSets (t : Vec3 → Vec3) :
    List MeshSet → GeometryData → GeometryData
  | [], g => g
  | ms :: rest, g => extractMeshSets t rest (extractMeshSet t ms g)

/-- `ApplyScale`: when the scale is not 1, multiply every vertex coordinate
by it in place; normals, texcoords and indices are untouched. -/
def applyScale (g : GeometryData) (scale : ℚ) : GeometryData :=
  if scale = 1 then g
  else { g with vertices := g.vertices.map (· * scale) }

/-- The flat coordinate array grouped into (x, y, z) triples, as the loop in
`CalculateBounds` walks it (step 3). -/
def triples : List ℚ → List (ℚ × ℚ × ℚ)
  | x :: y :: z :: rest => (x, y, z) :: triples rest
  | _ => []

/-- Component-wise minimum of two coordinate triples. -/
def minTriple (a b : ℚ × ℚ × ℚ) : ℚ × ℚ × ℚ :=
  (min a.1 b.1, min a.2.1 b.2.1, min a.2.2 b.2.2)

/-- Component-wise maximum of two coordinate triples. -/
def maxTriple (a b : ℚ × ℚ × ℚ) : ℚ × ℚ × ℚ :=
  (max a.1 b.1, max a.2.1 b.2.1, max a.2.2 b.2.2)

/-- `GeometryData::CalculateBounds`: if there are no vertices the bounds are
left untouched; otherwise minimum/maximum are initialized from the first
vertex and folded over the remaining ones. -/
def calculateBounds (g : GeometryData) : GeometryData :=
  match triples g.vertices with
  | [] => g
  | t0 :: ts =>
      let mn := ts.foldl minTriple t0
      let mx := ts.foldl maxTriple t0
      { g with
        minBounds := ⟨mn.1, mn.2.1, mn.2.2⟩,
        maxBounds := ⟨mx.1, mx.2.1, mx.2.2⟩ }

mutual

/-- `ExtractGeometricItems`: accumulate all triangles of the item's closed
and open mesh sets into a fresh `GeometryData`; if any vertices were
produced, apply the scale, compute the bounds and push the record onto the
node's geometry list; then recurse into the child items with the same local
transform. -/
def extractGeometricItems (scale : ℚ) (t : Vec3 → Vec3) :
    ItemShapeData → List GeometryData → List GeometryData
  | .mk msets mopen children, geoms =>
      let g := extractMeshSets t mopen (extractMeshSets t msets emptyGeom)
      let geoms1 :=
        if g.vertices = [] then geoms
        else geoms ++ [calculateBounds (applyScale g scale)]
      extractItemChildren scale t children geoms1

/-- The loop over `m_child_items` in `ExtractGeometricItems`. -/
def extractItemChildren (scale : ℚ) (t : Vec3 → Vec3) :
    ItemList → List GeometryData → List GeometryData
  | .nil, geoms => geoms
  | .cons c rest, geoms =>
      extractItemChildren scale t rest (extractGeometricItems scale t c geoms)

end

mutual

/-- `ExtractShapeData`: read this entry's own transform, extract all of its
geometric items with it, then recurse into the child elements (which each
read their own transform in turn), all into the same node's list. -/
def extractShapeData (scale : ℚ) :
    ProductShapeData → List GeometryData → List GeometryData
  | .mk t items children, geoms =>
      extractShapeChildren scale children
        (extractItemChildren scale t items geoms)

/-- The loop over `getChildElements()` in `ExtractShapeData`. -/
def extractShapeChildren (scale : ℚ) :
    ProductList → List GeometryData → List GeometryData
  | .nil, geoms => geoms
  | .cons c rest, geoms =>
      extractShapeChildren scale rest (extractShapeData scale c geoms)

end

/-- One top-level entity of `getShapeInputData()`: its resolved display
name, its coarse type label and its shape-data tree. -/
structure SceneEntity where
  name : String
  typeLabel : String
  shape : ProductShapeData

/-- One flattened scene node (a child of the synthetic root): name, type
label and the geometry records merged from its whole shape subtree. -/
structure GltfNode where
  name : String
  typeLabel : String
  geometries : List GeometryData
deriving DecidableEq, Repr

/-- The loop body of `ExtractGeometryData`: per entity, extract the whole
shape subtree into one node and keep the node only if it ended up with at
least one geometry record. -/
def buildSceneAux (scale : ℚ) :
    List SceneEntity → List GltfNode → List GltfNode
  | [], acc => acc
  | e :: rest, acc =>
      let gs := extractShapeData scale e.shape []
      buildSceneAux scale rest
        (if gs = [] then acc else acc ++ [⟨e.name, e.typeLabel, gs⟩])

/-- `ExtractGeometryData`: the flat list of children of the synthetic root
node, in entity traversal order. -/
def buildScene (scale : ℚ) (entities : List SceneEntity) : List GltfNode :=
  buildSceneAux scale entities []

/-- All geometry records of the scene in global traversal order (node by
node, record by record) — the iteration order of every `Write…` loop. -/
def allGeoms : List GltfNode → List GeometryData
  | [] => []
  | n :: rest => n.geometries ++ allGeoms rest

/-! ## glTF graph builder: accessors and bufferViews

`WriteAccessors` / `WriteBufferViews` emit JSON text; each emitted JSON
object is modelled as a record holding exactly the fields the code writes. -/

/-- One emitted accessor: the fields written by `WriteAccessors`.  `minMax`
is `some` exactly for position accessors (the only ones with min/max). -/
structure Accessor where
  bufferView : ℕ
  componentType : ℕ
  count : ℕ
  type : String
  minMax : Option (Vec3 × Vec3)
deriving DecidableEq, Repr

/-- The three accessors written per geometry record, in source order:
position (float32 `5126`, VEC3, count = vertex count, with min/max), normal
(float32, VEC3, same count), index (uint32 `5125`, SCALAR, count = index
count); `idx` is the running bufferView counter. -/
def geomAccessors (idx : ℕ) (g : GeometryData) : List Accessor :=
  let vertexCount := g.vertices.length / 3
  [ ⟨idx, 5126, vertexCount, "VEC3", some (g.minBounds, g.maxBounds)⟩,
    ⟨idx + 1, 5126, vertexCount, "VEC3", none⟩,
    ⟨idx + 2, 5125, g.indices.length, "SCALAR", none⟩ ]

/-- The loop of `WriteAccessors` over all records, advancing the bufferView
counter by 3 per record. -/
def accessorsAux : List GeometryData → ℕ → List Accessor
  | [], _ => []
  | g :: rest, idx => geomAccessors idx g ++ accessorsAux rest (idx + 3)

/-- `WriteAccessors`: the emitted accessors array for the whole scene. -/
def accessorsOf (nodes : List GltfNode) : List Accessor :=
  accessorsAux (allGeoms nodes) 0

/-- One emitted bufferView: the fields written by `WriteBufferViews`. -/
structure BufferView where
  buffer : ℕ
  byteOffset : ℕ
  byteLength : ℕ
  target : ℕ
deriving DecidableEq, Repr

/-- The three bufferViews written per geometry record: vertex bytes
(`float32`, 4 bytes each, target 34962), normal bytes (34962), index bytes
(`uint32`, 4 bytes each, target 34963), at consecutive running offsets. -/
def geomBufferViews (off : ℕ) (g : GeometryData) : List BufferView :=
  let vertexBytes := g.vertices.length * 4
  let normalBytes := g.normals.length * 4
  let indexBytes := g.indices.length * 4
  [ ⟨0, off, vertexBytes, 34962⟩,
    ⟨0, off + vertexBytes, normalBytes, 34962⟩,
    ⟨0, off + vertexBytes + normalBytes, indexBytes, 34963⟩ ]

/-- Total byte contribution of one record to the single buffer. -/
def geomByteSize (g : GeometryData) : ℕ :=
  g.vertices.length * 4 + g.normals.length * 4 + g.indices.length * 4

/-- The loop of `WriteBufferViews`, threading the running byte offset. -/
def bufferViewsAux : List GeometryData → ℕ → List BufferView
  | [], _ => []
  | g :: rest, off => geomBufferViews off g ++ bufferViewsAux rest (off + geomByteSize g)

/-- `WriteBufferViews`: the emitted bufferViews array for the whole scene. -/
def bufferViewsOf (nodes : List GltfNode) : List BufferView :=
  bufferViewsAux (allGeoms nodes) 0

/-- The running cumulative sums of a list of byte lengths starting from
`acc`: the sequence of byteOffset values a correct writer should emit. -/
def runningOffsets : List ℕ → ℕ → List ℕ
  | [], _ => []
  | l :: rest, acc => acc :: runningOffsets rest (acc + l)

/-! ## GLB container writer

Byte level model: a byte is a `ℕ` (always `< 256` where produced by
`u32le`); writing a `uint32` produces its four little-endian bytes. -/

/-- The four little-endian bytes of a `uint32` value. -/
def u32le (n : ℕ) : List ℕ :=
  [n % 256, n / 256 % 256, n / 65536 % 256, n / 16777216 % 256]

/-- Read a little-endian `uint32` at byte offset `i` (missing bytes read as
zero, matching reading past the end of a file). -/
def readU32 (l : List ℕ) (i : ℕ) : ℕ :=
  l.getD i 0 + 256 * (l.getD (i + 1) 0 +
    256 * (l.getD (i + 2) 0 + 256 * l.getD (i + 3) 0))

/-- `(len + 3) & ~3`: length rounded up to the next multiple of 4. -/
def align4 (n : ℕ) : ℕ := (n + 3) / 4 * 4

/-- `WriteGlbHeader`: magic `0x46546C67`, version 2, and the total file
length `12 + 8 + alignedJson + (binary empty ? 0 : 8 + alignedBinary)`,
each written as a little-endian `uint32`. -/
def glbHeader (json bin : List ℕ) : List ℕ :=
  let jsonLength := align4 json.length
  let binaryLength := align4 bin.length
  let totalLength :=
    12 + 8 + jsonLength + (if bin = [] then 0 else 8 + binaryLength)
  u32le 0x46546C67 ++ u32le 2 ++ u32le totalLength

/-- `WriteGlbJsonChunk`: aligned chunk length, chunk type `0x4E4F534A`
("JSON"), the JSON bytes, then ASCII spaces (0x20) up to the aligned
length. -/
def glbJsonChunk (json : List ℕ) : List ℕ :=
  u32le (align4 json.length) ++ u32le 0x4E4F534A ++ json ++
    List.replicate (align4 json.length - json.length) 0x20

/-- `WriteGlbBinaryChunk`: aligned chunk length, chunk type `0x004E4942`
("BIN\0"), the raw bytes, then zero bytes up to the aligned length. -/
def glbBinaryChunk (bin : List ℕ) : List ℕ :=
  u32le (align4 bin.length) ++ u32le 0x004E4942 ++ bin ++
    List.replicate (align4 bin.length - bin.length) 0

/-- `WriteGlbFile` after the JSON string and the binary blob have been
produced: header, JSON chunk, and the binary chunk only when the blob is
non-empty. -/
def writeGlbBytes (json bin : List ℕ) : List ℕ :=
  glbHeader json bin ++ glbJsonChunk json ++
    (if bin = [] then [] else glbBinaryChunk bin)

/-! ## Sidecar file naming and output error handling

Strings are modelled as `List Char`; the file system is modelled by an
oracle `canOpen : List Char → Bool` telling which paths can be opened for
writing. -/

/-- Index of the last occurrence of `c` in `s`, or `none`
(`find_last_of` returning `npos`). -/
def lastIndexOf (c : Char) (s : List Char) : Option ℕ :=
  match s with
  | [] => none
  | a :: rest =>
      match lastIndexOf c rest with
      | some i => some (i + 1)
      | none => if a = c then some 0 else none

/-- `s.substr(0, s.find_last_of('.'))`: everything before the last dot; when
there is no dot, `find_last_of` returns `npos` and `substr(0, npos)` yields
the whole string. -/
def truncAtLastDot (s : List Char) : List Char :=
  match lastIndexOf '.' s with
  | some i => s.take i
  | none => s

/-- `s.substr(s.find_last_of(c) + 1)`: everything after the last occurrence
of `c`; with no occurrence, `npos + 1` wraps to `0` and the whole string is
returned. -/
def afterLastChar (c : Char) (s : List Char) : List Char :=
  match lastIndexOf c s with
  | some i => s.drop (i + 1)
  | none => s

/-- The sidecar binary file path computed by `WriteBuffers`:
`outputFile.substr(0, find_last_of('.')) + ".bin"`. -/
def binFileOfWriteBuffers (outputFile : List Char) : List Char :=
  truncAtLastDot outputFile ++ ".bin".toList

/-- The sidecar binary file path computed by `WriteBinaryData` — the same
expression as in `WriteBuffers`, embedded separately to compare the two. -/
def binFileOfWriteBinaryData (outputFile : List Char) : List Char :=
  truncAtLastDot outputFile ++ ".bin".toList

/-- The bare file name `WriteBuffers` puts into the buffer `uri`: strip
everything up to the last `'/'`; if that changed nothing, strip everything
up to the last `'\'`. -/
def uriOfWriteBuffers (outputFile : List Char) : List Char :=
  let binFileName := binFileOfWriteBuffers outputFile
  let only := afterLastChar '/' binFileName
  if only = binFileName then afterLastChar '\\' binFileName else only

/-- Result of `WriteBinaryData` (a `void` function): either the sidecar file
was written, or opening it failed and only a warning was logged. -/
inductive BinWriteOutcome : Type where
  | written : BinWriteOutcome
  | warnedCannotCreate : BinWriteOutcome
deriving DecidableEq, Repr

/-- `WriteBinaryData`: try to open the sidecar `.bin` file; on failure log a
warning and return — no error is propagated. -/
def writeBinaryData (canOpen : List Char → Bool) (outputFile : List Char) :
    BinWriteOutcome :=
  if canOpen (binFileOfWriteBinaryData outputFile) then .written
  else .warnedCannotCreate

/-- `WriteGltfFile`: fail (return `false`) when the main `.gltf` output
cannot be opened; otherwise write the JSON, call `WriteBinaryData` (whose
outcome is discarded), and return `true`. -/
def writeGltfFile (canOpen : List Char → Bool) (outputFile : List Char) :
    Bool :=
  if canOpen outputFile then
    let _ := writeBinaryData canOpen outputFile
    true
  else false

/-- `WriteGlbFile`: fail exactly when the `.glb` output cannot be opened. -/
def writeGlbFileResult (canOpen : List Char → Bool)
    (outputFile : List Char) : Bool :=
  canOpen outputFile

/-! ## Character-level JSON emission (`WriteGltfJson` sections)

The exact character streams produced by the node / mesh / scene writers,
needed to settle how entity names reach the output. -/

/-- The characters of a string literal. -/
def chars (s : String) : List Char := s.toList

/-- Decimal digits of a number as `operator<<` prints it. -/
def natChars (n : ℕ) : List Char := (toString n).toList

/-- One entry of the `nodes` array: verbatim name, and a `mesh` field equal
to the node index only when the node has geometry. -/
def writeNodeEntry (i : ℕ) (n : GltfNode) : List Char :=
  chars "    \x7b\n      \"name\": \"" ++ n.name.toList ++ chars "\"" ++
    (if n.geometries = [] then []
     else chars ",\n      \"mesh\": " ++ natChars i) ++
    chars "\n    \x7d"

/-- The loop of `WriteNodes` with its `if (i > 0)` separator. -/
def writeNodesAux : List GltfNode → ℕ → List Char
  | [], _ => []
  | n :: rest, i =>
      (if 0 < i then chars ",\n" else []) ++ writeNodeEntry i n ++
        writeNodesAux rest (i + 1)

/-- `WriteNodes`: the whole `"nodes"` section. -/
def writeNodes (children : List GltfNode) : List Char :=
  chars "  \"nodes\": [\n" ++ writeNodesAux children 0 ++ chars "\n  ],\n"

/-- One primitive of a mesh, using global accessor counter `a`: accessor
indices `3a`, `3a+1`, `3a+2` and the hard-wired `material: 0`. -/
def writePrimitiveEntry (a : ℕ) : List Char :=
  chars "        \x7b\n          \"attributes\": \x7b\n            \"POSITION\": " ++
    natChars (a * 3) ++ chars ",\n            \"NORMAL\": " ++
    natChars (a * 3 + 1) ++
    chars "\n          \x7d,\n          \"indices\": " ++
    natChars (a * 3 + 2) ++
    chars ",\n          \"material\": 0\n        \x7d"

/-- The primitives loop of one mesh entry; returns the text and the advanced
global accessor counter. -/
def writePrimitivesAux : List GeometryData → ℕ → ℕ → List Char × ℕ
  | [], _, a => ([], a)
  | _ :: rest, i, a =>
      let tail := writePrimitivesAux rest (i + 1) (a + 1)
      ((if 0 < i then chars ",\n" else []) ++ writePrimitiveEntry a ++
        tail.1, tail.2)

/-- The loop of `WriteMeshes`: nodes without geometry are skipped; each kept
node emits one mesh entry named `<name>_Mesh` with one primitive per
geometry record. -/
def writeMeshesAux : List GltfNode → Bool → ℕ → List Char
  | [], _, _ => []
  | n :: rest, first, a =>
      if n.geometries = [] then writeMeshesAux rest first a
      else
        let prim := writePrimitivesAux n.geometries 0 a
        (if first then [] else chars ",\n") ++
          chars "    \x7b\n      \"name\": \"" ++ n.name.toList ++
          chars "_Mesh\",\n      \"primitives\": [\n" ++ prim.1 ++
          chars "\n      ]\n    \x7d" ++ writeMeshesAux rest false prim.2

/-- `WriteMeshes`: the whole `"meshes"` section. -/
def writeMeshes (children : List GltfNode) : List Char :=
  chars "  \"meshes\": [\n" ++ writeMeshesAux children true 0 ++
    chars "\n  ],\n"

/-- The root-scene index list `0, 1, …` of length `k`, starting at `i`. -/
def sceneNodeIdxList : ℕ → ℕ → List Char
  | _, 0 => []
  | i, k + 1 =>
      (if 0 < i then chars ", " else []) ++ natChars i ++
        sceneNodeIdxList (i + 1) k

/-- The `"scene"` / `"scenes"` block of `WriteGltfJson`: the root node's
name written verbatim and the indices of all top-level nodes. -/
def writeScenesSection (rootName : String) (children : List GltfNode) :
    List Char :=
  chars "  \"scene\": 0,\n  \"scenes\": [\n    \x7b\n      \"name\": \"" ++
    rootName.toList ++ chars "\",\n      \"nodes\": [" ++
    sceneNodeIdxList 0 children.length ++ chars "]\n    \x7d\n  ],\n"

/-- The byte-for-byte name field emitted for a string `s`:
`"name": "` followed by the raw characters of `s` and a closing quote —
no JSON escaping of any kind. -/
def nameFieldChars (s : List Char) : List Char :=
  chars "\"name\": \"" ++ s ++ chars "\""

/-! ## Basic facts about alignment and little-endian words -/

theorem align4_ge (n : ℕ) : n ≤ align4 n := by
  unfold align4; omega

theorem align4_mod4 (n : ℕ) : align4 n % 4 = 0 := by
  unfold align4; omega

theorem u32le_length (n : ℕ) : (u32le n).length = 4 := rfl

/-- Reading back the four little-endian bytes of `n` recovers `n` reduced
modulo `2^32` — the value a `uint32` field actually stores. -/
theorem readU32_u32le (n : ℕ) (rest : List ℕ) :
    readU32 (u32le n ++ rest) 0 = n % 4294967296 := by
  simp only [readU32, u32le, List.cons_append, List.nil_append,
    List.getD_cons_zero, List.getD_cons_succ]
  omega

theorem readU32_append_right (a l : List ℕ) (i : ℕ) :
    readU32 (a ++ l) (a.length + i) = readU32 l i := by
  have h0 := List.getD_append_right a l 0 (a.length + i) (by omega)
  have h1 := List.getD_append_right a l 0 (a.length + i + 1) (by omega)
  have h2 := List.getD_append_right a l 0 (a.length + i + 2) (by omega)
  have h3 := List.getD_append_right a l 0 (a.length + i + 3) (by omega)
  have e0 : a.length + i - a.length = i := by omega
  have e1 : a.length + i + 1 - a.length = i + 1 := by omega
  have e2 : a.length + i + 2 - a.length = i + 2 := by omega
  have e3 : a.length + i + 3 - a.length = i + 3 := by omega
  rw [e0] at h0; rw [e1] at h1; rw [e2] at h2; rw [e3] at h3
  unfold readU32
  rw [h0, h1, h2, h3]

/-- Skipping one 4-byte word while reading. -/
theorem readU32_u32le_skip (a : ℕ) (l : List ℕ) (i : ℕ) :
    readU32 (u32le a ++ l) (4 + i) = readU32 l i :=
  readU32_append_right (u32le a) l i

theorem glbJsonChunk_length (json : List ℕ) :
    (glbJsonChunk json).length = 8 + align4 json.length := by
  have := align4_ge json.length
  simp [glbJsonChunk, u32le]
  omega

/-- C1: for every scene (i.e. every JSON byte string and binary blob), the
GLB output's third header `uint32` (total file length) equals
`12 + 8 + alignedJsonLength + (0 if the blob is empty, else
8 + alignedBinaryLength)` as a `uint32`; both chunk-length fields are
multiples of 4; the JSON chunk is padded to its aligned length with ASCII
spaces (0x20) and the binary chunk with zero bytes; and when the blob is
empty the file is exactly the header plus the JSON chunk — no binary chunk
length, type or payload is written. -/
theorem c1_glb_framing (json bin : List ℕ) :
    readU32 (writeGlbBytes json bin) 8 =
      (12 + 8 + align4 json.length +
        (if bin = [] then 0 else 8 + align4 bin.length)) % 4294967296 ∧
    readU32 (writeGlbBytes json bin) 12 % 4 = 0 ∧
    (bin ≠ [] →
      readU32 (writeGlbBytes json bin) (20 + align4 json.length) % 4 = 0) ∧
    List.take (align4 json.length - json.length)
        (List.drop (20 + json.length) (writeGlbBytes json bin)) =
      List.replicate (align4 json.length - json.length) 0x20 ∧
    (bin ≠ [] →
      List.drop (28 + align4 json.length + bin.length)
          (writeGlbBytes json bin) =
        List.replicate (align4 bin.length - bin.length) 0) ∧
    (bin = [] →
      writeGlbBytes json bin = glbHeader json bin ++ glbJsonChunk json ∧
      (writeGlbBytes json bin).length = 20 + align4 json.length) := by
  refine ⟨?_, ?_, ?_, ?_, ?_, ?_⟩
  · simp only [writeGlbBytes, glbHeader, List.append_assoc]
    have h8 : (8 : ℕ) = 4 + (4 + 0) := rfl
    rw [h8, readU32_u32le_skip, readU32_u32le_skip, readU32_u32le]
  · simp only [writeGlbBytes, glbHeader, glbJsonChunk, List.append_assoc]
    have h12 : (12 : ℕ) = 4 + (4 + (4 + 0)) := rfl
    rw [h12, readU32_u32le_skip, readU32_u32le_skip, readU32_u32le_skip,
      readU32_u32le]
    have := align4_mod4 json.length
    omega
  · intro h
    have hlen : (glbHeader json bin ++ glbJsonChunk json).length =
        20 + align4 json.length := by
      simp [glbHeader, glbJsonChunk_length, u32le]
      omega
    have hout : writeGlbBytes json bin =
        (glbHeader json bin ++ glbJsonChunk json) ++ glbBinaryChunk bin := by
      simp [writeGlbBytes, if_neg h, List.append_assoc]
    rw [hout, show 20 + align4 json.length =
      (glbHeader json bin ++ glbJsonChunk json).length + 0 by rw [hlen]; omega,
      readU32_append_right]
    simp only [glbBinaryChunk, List.append_assoc]
    rw [readU32_u32le]
    have := align4_mod4 bin.length
    omega
  · have hout : writeGlbBytes json bin =
        (glbHeader json bin ++ (u32le (align4 json.length) ++
          (u32le 0x4E4F534A ++ json))) ++
        (List.replicate (align4 json.length - json.length) 0x20 ++
          (if bin = [] then [] else glbBinaryChunk bin)) := by
      simp [writeGlbBytes, glbJsonChunk, List.append_assoc]
    have hAlen : (glbHeader json bin ++ (u32le (align4 json.length) ++
        (u32le 0x4E4F534A ++ json))).length = 20 + json.length := by
      simp [glbHeader, u32le]
      omega
    rw [hout, ← hAlen, List.drop_left]
    simp
  · intro h
    have hout : writeGlbBytes json bin =
        ((glbHeader json bin ++ glbJsonChunk json) ++
          (u32le (align4 bin.length) ++ (u32le 0x004E4942 ++ bin))) ++
        List.replicate (align4 bin.length - bin.length) 0 := by
      simp [writeGlbBytes, glbBinaryChunk, if_neg h, List.append_assoc]
    have hB : ((glbHeader json bin ++ glbJsonChunk json) ++
        (u32le (align4 bin.length) ++ (u32le 0x004E4942 ++ bin))).length =
        28 + align4 json.length + bin.length := by
      simp [glbHeader, glbJsonChunk_length, u32le]
      omega
    rw [hout, ← hB, List.drop_left]
  · intro h
    constructor
    · simp [writeGlbBytes, if_pos h]
    · simp [writeGlbBytes, if_pos h, glbHeader, glbJsonChunk_length, u32le]
      omega

/-- Witness for C1 at a 5-byte JSON and both a 1-byte and an empty blob. -/
theorem c1_glb_framing_witness :
    readU32 (writeGlbBytes [1, 2, 3, 4, 5] [9]) 8 = 40 ∧
    List.drop (28 + align4 5 + 1) (writeGlbBytes [1, 2, 3, 4, 5] [9]) =
      List.replicate 3 0 ∧
    (writeGlbBytes [1, 2, 3, 4, 5] []).length = 20 + align4 5 := by
  have h1 := c1_glb_framing [1, 2, 3, 4, 5] [9]
  have h2 := c1_glb_framing [1, 2, 3, 4, 5] []
  exact ⟨h1.1.trans (by decide), h1.2.2.2.2.1 (by decide),
    (h2.2.2.2.2.2 rfl).2⟩

/-! ## Sidecar `.bin` naming (C9) and output error propagation (C8) -/

theorem lastIndexOf_eq_none {c : Char} :
    ∀ {s : List Char}, c ∉ s → lastIndexOf c s = none := by
  intro s
  induction s with
  | nil => intro _; rfl
  | cons a rest ih =>
      intro h
      have ha : ¬a = c := fun e => h (by simp [e])
      have hr : c ∉ rest := fun e => h (by simp [e])
      simp [lastIndexOf, ih hr, ha]

/-- Whatever `afterLastChar` keeps is a suffix of the input: the dropped
part can be prepended to recover the whole path. -/
theorem afterLastChar_suffix (c : Char) (s : List Char) :
    ∃ d, d ++ afterLastChar c s = s := by
  unfold afterLastChar
  cases h : lastIndexOf c s with
  | none => exact ⟨[], rfl⟩
  | some i => exact ⟨s.take (i + 1), List.take_append_drop _ _⟩

/-- C9: for an output path with no `'.'`, the truncation at the last dot
degenerates to the whole string, so the sidecar file is the path plus
`".bin"`; `WriteBuffers` (which produces the JSON `uri`) and
`WriteBinaryData` (which opens the file) compute that name by the same
rule, and the `uri` is exactly a trailing segment (the bare file name) of
the path actually written, so both always name the same file. -/
theorem c9_bin_sidecar_naming (p : List Char) (hnd : '.' ∉ p) :
    binFileOfWriteBuffers p = p ++ ".bin".toList ∧
    binFileOfWriteBinaryData p = binFileOfWriteBuffers p ∧
    ∃ d, d ++ uriOfWriteBuffers p = binFileOfWriteBinaryData p := by
  refine ⟨?_, rfl, ?_⟩
  · unfold binFileOfWriteBuffers truncAtLastDot
    rw [lastIndexOf_eq_none hnd]
  · unfold uriOfWriteBuffers binFileOfWriteBinaryData binFileOfWriteBuffers
    set b := truncAtLastDot p ++ ".bin".toList with hb
    by_cases h : afterLastChar '/' b = b
    · simp only [h, if_pos rfl]
      exact afterLastChar_suffix '\\' b
    · simp only [if_neg h]
      exact afterLastChar_suffix '/' b

/-- Witness for C9 at the dotless path `"out/model"`. -/
theorem c9_bin_sidecar_naming_witness :
    binFileOfWriteBuffers "out/model".toList =
      "out/model".toList ++ ".bin".toList ∧
    ∃ d, d ++ uriOfWriteBuffers "out/model".toList =
      binFileOfWriteBinaryData "out/model".toList := by
  have h := c9_bin_sidecar_naming "out/model".toList (by decide)
  exact ⟨h.1, h.2.2⟩

/-- A file system in which only `out.gltf` itself can be created, but not
the sidecar `out.bin`. -/
def c8CanOpen : List Char → Bool :=
  fun s => s = "out.gltf".toList

/-- Counterexample to C8: when the main `.gltf` file opens but the sidecar
`.bin` cannot be created, `WriteBinaryData` only logs a warning, and the
conversion still reports success — contradicting the claim that any
unwritable destination file (including the sidecar) fails the whole
conversion. -/
theorem c8_counterexample :
    writeGltfFile c8CanOpen "out.gltf".toList = true ∧
    c8CanOpen (binFileOfWriteBinaryData "out.gltf".toList) = false ∧
    writeBinaryData c8CanOpen "out.gltf".toList =
      BinWriteOutcome.warnedCannotCreate := by
  decide

/-- C8 as amended: failure to open the MAIN output file (`.gltf` or `.glb`)
fails the conversion, and success of the main file alone already yields a
successful result — a failure of the sidecar `.bin` file in glTF mode is
only logged as a warning and does not affect the result. -/
theorem c8_output_error_handling (canOpen : List Char → Bool)
    (p : List Char) :
    (canOpen p = false →
      writeGltfFile canOpen p = false ∧
      writeGlbFileResult canOpen p = false) ∧
    (canOpen p = true →
      writeGltfFile canOpen p = true ∧
      writeGlbFileResult canOpen p = true) := by
  constructor
  · intro h
    constructor
    · simp [writeGltfFile, h]
    · simp [writeGlbFileResult, h]
  · intro h
    constructor
    · simp [writeGltfFile, h]
    · simp [writeGlbFileResult, h]

/-- Witness for the amended C8: the failing-sidecar file system of the
counterexample still yields overall success, and a file system refusing the
main file yields failure. -/
theorem c8_output_error_handling_witness :
    writeGltfFile c8CanOpen "out.gltf".toList = true ∧
    writeGltfFile (fun _ => false) "out.gltf".toList = false := by
  exact ⟨(c8_output_error_handling c8CanOpen "out.gltf".toList).2
      (by decide) |>.1,
    (c8_output_error_handling (fun _ => false) "out.gltf".toList).1
      rfl |>.1⟩

/-! ## Verbatim name emission (C10) -/

theorem writeNodesAux_has_name (n : GltfNode) :
    ∀ (cs : List GltfNode) (i : ℕ), n ∈ cs →
    ∃ pre post,
      writeNodesAux cs i = pre ++ nameFieldChars n.name.toList ++ post := by
  intro cs
  induction cs with
  | nil => intro i h; simp at h
  | cons c rest ih =>
      intro i h
      rcases List.mem_cons.mp h with rfl | h'
      · refine ⟨(if 0 < i then chars ",\n" else []) ++ chars "    \x7b\n      ",
          ((if n.geometries = [] then []
            else chars ",\n      \"mesh\": " ++ natChars i) ++
            chars "\n    \x7d") ++ writeNodesAux rest (i + 1), ?_⟩
        have hsplit : chars "    \x7b\n      \"name\": \"" =
            chars "    \x7b\n      " ++ chars "\"name\": \"" := rfl
        simp [writeNodesAux, writeNodeEntry, nameFieldChars, hsplit,
          List.append_assoc]
      · obtain ⟨p, q, hq⟩ := ih (i + 1) h'
        refine ⟨((if 0 < i then chars ",\n" else []) ++ writeNodeEntry i c) ++
          p, q, ?_⟩
        simp [writeNodesAux, hq, List.append_assoc]

theorem writeMeshesAux_has_name (n : GltfNode) :
    ∀ (cs : List GltfNode) (first : Bool) (a : ℕ), n ∈ cs →
    n.geometries ≠ [] →
    ∃ pre post, writeMeshesAux cs first a =
      pre ++ (chars "\"name\": \"" ++ n.name.toList ++ chars "_Mesh\"") ++
        post := by
  intro cs
  induction cs with
  | nil => intro f a h _; simp at h
  | cons c rest ih =>
      intro f a h hne
      rcases List.mem_cons.mp h with rfl | h'
      · refine ⟨(if f then [] else chars ",\n") ++ chars "    \x7b\n      ",
          chars ",\n      \"primitives\": [\n" ++
            (writePrimitivesAux n.geometries 0 a).1 ++
            chars "\n      ]\n    \x7d" ++
            writeMeshesAux rest false (writePrimitivesAux n.geometries 0 a).2,
          ?_⟩
        have hs1 : chars "    \x7b\n      \"name\": \"" =
            chars "    \x7b\n      " ++ chars "\"name\": \"" := rfl
        have hs2 : chars "_Mesh\",\n      \"primitives\": [\n" =
            chars "_Mesh\"" ++ chars ",\n      \"primitives\": [\n" := rfl
        simp [writeMeshesAux, hne, hs1, hs2, List.append_assoc]
      · by_cases hc : c.geometries = []
        · obtain ⟨p, q, hq⟩ := ih f a h' hne
          exact ⟨p, q, by simp [writeMeshesAux, hc, hq]⟩
        · obtain ⟨p, q, hq⟩ :=
            ih false (writePrimitivesAux c.geometries 0 a).2 h' hne
          refine ⟨((if f then [] else chars ",\n") ++
            (chars "    \x7b\n      \"name\": \"" ++ c.name.toList ++
              chars "_Mesh\",\n      \"primitives\": [\n" ++
              (writePrimitivesAux c.geometries 0 a).1 ++
              chars "\n      ]\n    \x7d")) ++ p, q, ?_⟩
          simp [writeMeshesAux, hc, hq, List.append_assoc]

/-- C10: entity names reach the emitted JSON byte-for-byte, verbatim
between the quote characters of the `"name"` fields of the `nodes`,
`meshes` (with the `_Mesh` suffix) and `scenes` sections — no JSON escaping
of any kind is applied, so a name containing a double quote, backslash or
control character puts those bytes unescaped inside the JSON string
literal. -/
theorem c10_names_verbatim (rootName : String) (children : List GltfNode)
    (n : GltfNode) (hn : n ∈ children) :
    (∃ pre post,
      writeNodes children = pre ++ nameFieldChars n.name.toList ++ post) ∧
    (n.geometries ≠ [] → ∃ pre post, writeMeshes children =
      pre ++ (chars "\"name\": \"" ++ n.name.toList ++ chars "_Mesh\"") ++
        post) ∧
    (∃ pre post, writeScenesSection rootName children =
      pre ++ nameFieldChars rootName.toList ++ post) := by
  refine ⟨?_, ?_, ?_⟩
  · obtain ⟨p, q, hq⟩ := writeNodesAux_has_name n children 0 hn
    exact ⟨chars "  \"nodes\": [\n" ++ p, q ++ chars "\n  ],\n",
      by simp [writeNodes, hq, List.append_assoc]⟩
  · intro hne
    obtain ⟨p, q, hq⟩ := writeMeshesAux_has_name n children true 0 hn hne
    exact ⟨chars "  \"meshes\": [\n" ++ p, q ++ chars "\n  ],\n",
      by simp [writeMeshes, hq, List.append_assoc]⟩
  · refine ⟨chars "  \"scene\": 0,\n  \"scenes\": [\n    \x7b\n      ",
      chars ",\n      \"nodes\": [" ++ sceneNodeIdxList 0 children.length ++
        chars "]\n    \x7d\n  ],\n", ?_⟩
    have hs1 : chars "  \"scene\": 0,\n  \"scenes\": [\n    \x7b\n      \"name\": \"" =
        chars "  \"scene\": 0,\n  \"scenes\": [\n    \x7b\n      " ++
          chars "\"name\": \"" := rfl
    have hs2 : chars "\",\n      \"nodes\": [" =
        chars "\"" ++ chars ",\n      \"nodes\": [" := rfl
    simp [writeScenesSection, nameFieldChars, hs1, hs2, List.append_assoc]

/-- A node whose resolved name contains a double quote and a backslash. -/
def c10Node : GltfNode := ⟨"A\"B\\C", "t", [emptyGeom]⟩

/-- Witness for C10: the quote and backslash of the name appear unescaped
in the emitted `nodes` and `meshes` sections. -/
theorem c10_names_verbatim_witness :
    (∃ pre post, writeNodes [c10Node] =
      pre ++ nameFieldChars "A\"B\\C".toList ++ post) ∧
    (∃ pre post, writeMeshes [c10Node] =
      pre ++ (chars "\"name\": \"" ++ "A\"B\\C".toList ++
        chars "_Mesh\"") ++ post) := by
  have h := c10_names_verbatim "Scene" [c10Node] c10Node (by decide)
  exact ⟨h.1, h.2.1 (by decide)⟩

/-! ## Geometry-record invariants (C4) -/

/-- The `GeometryRecord` invariant of the claim: one normal per vertex
coordinate, whole (x,y,z) vertex triples, whole index triangles, and every
index referencing an existing vertex triple. -/
def WFrec (g : GeometryData) : Prop :=
  g.normals.length = g.vertices.length ∧
  g.vertices.length % 3 = 0 ∧
  g.indices.length % 3 = 0 ∧
  ∀ i ∈ g.indices, i < g.vertices.length / 3

instance instDecidableWFrec (g : GeometryData) : Decidable (WFrec g) := by
  unfold WFrec
  exact inferInstance

theorem wf_emptyGeom : WFrec emptyGeom := by decide

theorem appendTriangle_wf {g : GeometryData} (h : WFrec g)
    (p0 p1 p2 nrm : Vec3) : WFrec (appendTriangle g p0 p1 p2 nrm) := by
  obtain ⟨hn, hv, hi, hb⟩ := h
  refine ⟨?_, ?_, ?_, ?_⟩
  · simp [appendTriangle]
    omega
  · simp [appendTriangle]
    omega
  · simp [appendTriangle]
    omega
  · intro i hi'
    simp only [appendTriangle, List.mem_append, List.mem_cons,
      List.not_mem_nil, or_false, List.length_append] at hi' ⊢
    have hlen : ([p0.x, p0.y, p0.z, p1.x, p1.y, p1.z,
        p2.x, p2.y, p2.z] : List ℚ).length = 9 := rfl
    rw [hlen]
    rcases hi' with h' | h' | h' | h'
    · have := hb i h'
      omega
    all_goals subst h'; omega

theorem extractFanPairs_wf (t : Vec3 → Vec3) (v0 nrm : Vec3) :
    ∀ (ps : List (Vec3 × Vec3)) {g : GeometryData}, WFrec g →
      WFrec (extractFanPairs t v0 nrm ps g)
  | [], _, h => h
  | (_, _) :: rest, _, h =>
      extractFanPairs_wf t v0 nrm rest (appendTriangle_wf h _ _ _ _)

theorem extractFace_wf (t : Vec3 → Vec3) (f : Face) {g : GeometryData}
    (h : WFrec g) : WFrec (extractFace t f g) := by
  unfold extractFace
  split
  · exact extractFanPairs_wf t _ _ _ h
  · exact h

theorem extractFaces_wf (t : Vec3 → Vec3) :
    ∀ (fs : List Face) {g : GeometryData}, WFrec g →
      WFrec (extractFaces t fs g)
  | [], _, h => h
  | f :: rest, _, h => extractFaces_wf t rest (extractFace_wf t f h)

theorem extractMeshSet_wf (t : Vec3 → Vec3) :
    ∀ (ms : MeshSet) {g : GeometryData}, WFrec g →
      WFrec (extractMeshSet t ms g)
  | [], _, h => h
  | m :: rest, _, h => extractMeshSet_wf t rest (extractFaces_wf t m h)

theorem extractMeshSets_wf (t : Vec3 → Vec3) :
    ∀ (sets : List MeshSet) {g : GeometryData}, WFrec g →
      WFrec (extractMeshSets t sets g)
  | [], _, h => h
  | ms :: rest, _, h => extractMeshSets_wf t rest (extractMeshSet_wf t ms h)

theorem applyScale_wf {g : GeometryData} (h : WFrec g) (s : ℚ) :
    WFrec (applyScale g s) := by
  unfold applyScale
  split
  · exact h
  · obtain ⟨hn, hv, hi, hb⟩ := h
    exact ⟨by simpa using hn, by simpa using hv, hi, by simpa using hb⟩

theorem applyScale_vertices_length (g : GeometryData) (s : ℚ) :
    (applyScale g s).vertices.length = g.vertices.length := by
  unfold applyScale
  split
  · rfl
  · simp

theorem calculateBounds_vertices (g : GeometryData) :
    (calculateBounds g).vertices = g.vertices := by
  unfold calculateBounds
  split <;> rfl

theorem calculateBounds_wf {g : GeometryData} (h : WFrec g) :
    WFrec (calculateBounds g) := by
  unfold calculateBounds
  split
  · exact h
  · exact h

/-- A record as pushed by `ExtractGeometricItems`: non-empty and
well-formed. -/
def GoodRec (g : GeometryData) : Prop := g.vertices ≠ [] ∧ WFrec g

/-- The record pushed after accumulation, scaling and bounds computation is
good whenever the accumulated raw record had any vertices. -/
theorem pushed_good {g : GeometryData} (hne : g.vertices ≠ [])
    (hwf : WFrec g) (s : ℚ) :
    GoodRec (calculateBounds (applyScale g s)) := by
  constructor
  · rw [calculateBounds_vertices]
    intro h
    have := applyScale_vertices_length g s
    rw [h] at this
    simp at this
    exact hne (List.length_eq_zero.mp this.symm)
  · exact calculateBounds_wf (applyScale_wf hwf s)

mutual

theorem extractGeometricItems_good (scale : ℚ) (t : Vec3 → Vec3) :
    ∀ (item : ItemShapeData) (acc : List GeometryData),
      (∀ g ∈ acc, GoodRec g) →
      ∀ g ∈ extractGeometricItems scale t item acc, GoodRec g
  | .mk msets mopen children, acc, hacc => by
      have hwf : WFrec (extractMeshSets t mopen
          (extractMeshSets t msets emptyGeom)) :=
        extractMeshSets_wf t mopen (extractMeshSets_wf t msets wf_emptyGeom)
      have hacc1 : ∀ g ∈ (if (extractMeshSets t mopen
            (extractMeshSets t msets emptyGeom)).vertices = [] then acc
          else acc ++ [calculateBounds (applyScale (extractMeshSets t mopen
            (extractMeshSets t msets emptyGeom)) scale)]), GoodRec g := by
        split
        · exact hacc
        · next hne =>
            intro g hg
            rcases List.mem_append.mp hg with h | h
            · exact hacc g h
            · have := List.mem_singleton.mp h
              subst this
              exact pushed_good hne hwf scale
      intro g hg
      exact extractItemChildren_good scale t children _ hacc1 g
        (by simpa [extractGeometricItems] using hg)

theorem extractItemChildren_good (scale : ℚ) (t : Vec3 → Vec3) :
    ∀ (l : ItemList) (acc : List GeometryData),
      (∀ g ∈ acc, GoodRec g) →
      ∀ g ∈ extractItemChildren scale t l acc, GoodRec g
  | .nil, _, hacc => hacc
  | .cons c rest, acc, hacc =>
      extractItemChildren_good scale t rest _
        (extractGeometricItems_good scale t c acc hacc)

end

mutual

theorem extractShapeData_good (scale : ℚ) :
    ∀ (sd : ProductShapeData) (acc : List GeometryData),
      (∀ g ∈ acc, GoodRec g) →
      ∀ g ∈ extractShapeData scale sd acc, GoodRec g
  | .mk t items children, acc, hacc =>
      extractShapeChildren_good scale children _
        (extractItemChildren_good scale t items acc hacc)

theorem extractShapeChildren_good (scale : ℚ) :
    ∀ (l : ProductList) (acc : List GeometryData),
      (∀ g ∈ acc, GoodRec g) →
      ∀ g ∈ extractShapeChildren scale l acc, GoodRec g
  | .nil, _, hacc => hacc
  | .cons c rest, acc, hacc =>
      extractShapeChildren_good scale rest _
        (extractShapeData_good scale c acc hacc)

end

theorem mem_allGeoms {g : GeometryData} :
    ∀ {ns : List GltfNode}, g ∈ allGeoms ns →
      ∃ n ∈ ns, g ∈ n.geometries := by
  intro ns
  induction ns with
  | nil => intro h; simp [allGeoms] at h
  | cons n rest ih =>
      intro h
      rcases List.mem_append.mp (by simpa [allGeoms] using h) with h' | h'
      · exact ⟨n, by simp, h'⟩
      · obtain ⟨m, hm, hg⟩ := ih h'
        exact ⟨m, by simp [hm], hg⟩

theorem buildSceneAux_good (scale : ℚ) :
    ∀ (es : List SceneEntity) (acc : List GltfNode),
      (∀ n ∈ acc, ∀ g ∈ n.geometries, GoodRec g) →
      ∀ n ∈ buildSceneAux scale es acc, ∀ g ∈ n.geometries, GoodRec g := by
  intro es
  induction es with
  | nil => intro acc hacc; exact hacc
  | cons e rest ih =>
      intro acc hacc
      refine ih _ ?_
      split
      · exact hacc
      · intro n hn
        rcases List.mem_append.mp hn with h | h
        · exact hacc n h
        · have := List.mem_singleton.mp h
          subst this
          intro g hg
          exact extractShapeData_good scale e.shape [] (by simp) g hg

/-- Every geometry record of a built scene is non-empty and well-formed. -/
theorem buildScene_good (scale : ℚ) (entities : List SceneEntity) :
    ∀ g ∈ allGeoms (buildScene scale entities), GoodRec g := by
  intro g hg
  obtain ⟨n, hn, hgn⟩ := mem_allGeoms hg
  exact buildSceneAux_good scale entities [] (by simp) n hn g hgn

/-- C4: every geometry record produced by mesh extraction has a
whole-triangle index list (`indices.length % 3 = 0`), every index below
`vertices.length / 3`, and as many normal as vertex coordinates; the
invariant holds after every triangle append and is preserved by scaling and
by bounds computation. -/
theorem c4_record_invariants :
    (∀ (scale : ℚ) (entities : List SceneEntity),
      ∀ g ∈ allGeoms (buildScene scale entities), WFrec g) ∧
    (∀ (g : GeometryData) (p0 p1 p2 nrm : Vec3), WFrec g →
      WFrec (appendTriangle g p0 p1 p2 nrm)) ∧
    (∀ (g : GeometryData) (s : ℚ), WFrec g → WFrec (applyScale g s)) ∧
    (∀ g : GeometryData, WFrec g → WFrec (calculateBounds g)) :=
  ⟨fun scale entities g hg => (buildScene_good scale entities g hg).2,
   fun _ p0 p1 p2 nrm h => appendTriangle_wf h p0 p1 p2 nrm,
   fun _ s h => applyScale_wf h s,
   fun _ h => calculateBounds_wf h⟩

/-- A one-triangle face used by the concrete witnesses. -/
def sampleFace : Face := ⟨[⟨0, 0, 0⟩, ⟨1, 0, 0⟩, ⟨0, 1, 0⟩], ⟨0, 0, 1⟩⟩

/-- A shape-data item holding only `sampleFace` in one closed mesh set. -/
def sampleItem : ItemShapeData := .mk [[[sampleFace]]] [] .nil

/-- A shape-data entry with the identity transform and one item. -/
def sampleShape : ProductShapeData :=
  .mk (fun v => v) (.cons sampleItem .nil) .nil

/-- A one-entity scene input. -/
def sampleEntity : SceneEntity := ⟨"Obj", "IfcProduct", sampleShape⟩

/-- Witness for C4: the invariant on the record extracted from the sample
scene and on a concrete triangle append. -/
theorem c4_record_invariants_witness :
    WFrec (calculateBounds (applyScale (appendTriangle emptyGeom
      ⟨0, 0, 0⟩ ⟨1, 0, 0⟩ ⟨0, 1, 0⟩ ⟨0, 0, 1⟩) 2)) ∧
    WFrec ((allGeoms (buildScene 1 [sampleEntity])).getD 0 emptyGeom) := by
  constructor
  · exact c4_record_invariants.2.2.2 _
      (c4_record_invariants.2.2.1 _ 2
        (c4_record_invariants.2.1 emptyGeom _ _ _ _ (by decide)))
  · exact c4_record_invariants.1 1 [sampleEntity] _ (by decide)

/-! ## Fan triangulation (C5) -/

/-- The three coordinates of a vector, as appended to a flat array. -/
def flat3 (v : Vec3) : List ℚ := [v.x, v.y, v.z]

/-- The fan triangulation of the claim, written from its index formula: for
`i = 1 .. n-2` the triangle `(v0, v_i, v_{i+1})`, every corner transformed
by the local transform, flattened into coordinates. -/
def fanSpecVerts (t : Vec3 → Vec3) (loop : List Vec3) : List ℚ :=
  (List.range (loop.length - 2)).flatMap (fun i =>
    flat3 (t (loop.getD 0 ⟨0, 0, 0⟩)) ++
    flat3 (t (loop.getD (i + 1) ⟨0, 0, 0⟩)) ++
    flat3 (t (loop.getD (i + 2) ⟨0, 0, 0⟩)))

/-- The normals appended for `k` fan triangles: the face normal, three
corners per triangle. -/
def fanSpecNormals (nrm : Vec3) : ℕ → List ℚ
  | 0 => []
  | k + 1 => (flat3 nrm ++ flat3 nrm ++ flat3 nrm) ++ fanSpecNormals nrm k

/-- The indices appended for `k` fan triangles starting at vertex `base`:
three fresh consecutive indices per triangle. -/
def fanSpecIndices : ℕ → ℕ → List ℕ
  | _, 0 => []
  | base, k + 1 => [base, base + 1, base + 2] ++ fanSpecIndices (base + 3) k

theorem fanSpecIndices_length : ∀ base k, (fanSpecIndices base k).length = 3 * k
  | _, 0 => rfl
  | base, k + 1 => by
      simp [fanSpecIndices, fanSpecIndices_length (base + 3) k]
      omega

theorem extractFanPairs_spec (t : Vec3 → Vec3) (v0 nrm : Vec3) :
    ∀ (ps : List (Vec3 × Vec3)) (g : GeometryData),
    (extractFanPairs t v0 nrm ps g).vertices =
      g.vertices ++ ps.flatMap (fun p =>
        flat3 (t v0) ++ flat3 (t p.1) ++ flat3 (t p.2)) ∧
    (extractFanPairs t v0 nrm ps g).normals =
      g.normals ++ fanSpecNormals nrm ps.length ∧
    (extractFanPairs t v0 nrm ps g).indices =
      g.indices ++ fanSpecIndices (g.vertices.length / 3) ps.length
  | [], g => by
      simp [extractFanPairs, fanSpecNormals, fanSpecIndices]
  | (a, b) :: rest, g => by
      obtain ⟨hv, hn, hi⟩ := extractFanPairs_spec t v0 nrm rest
        (appendTriangle g (t v0) (t a) (t b) nrm)
      have hstep : extractFanPairs t v0 nrm ((a, b) :: rest) g =
          extractFanPairs t v0 nrm rest
            (appendTriangle g (t v0) (t a) (t b) nrm) := rfl
      have hbase : (appendTriangle g (t v0) (t a) (t b) nrm).vertices.length / 3 =
          g.vertices.length / 3 + 3 := by
        simp [appendTriangle]
        omega
      refine ⟨?_, ?_, ?_⟩
      · rw [hstep, hv]
        simp [appendTriangle, flat3, List.append_assoc]
      · rw [hstep, hn]
        simp [appendTriangle, fanSpecNormals, flat3, List.append_assoc]
      · rw [hstep, hi, hbase]
        simp [appendTriangle, fanSpecIndices, List.append_assoc]

theorem pairsOf_eq (d : Vec3) : ∀ xs : List Vec3,
    pairsOf xs = (List.range (xs.length - 1)).map
      (fun i => (xs.getD i d, xs.getD (i + 1) d))
  | [] => rfl
  | [_] => rfl
  | a :: b :: rest => by
      rw [show pairsOf (a :: b :: rest) = (a, b) :: pairsOf (b :: rest)
        from rfl]
      rw [pairsOf_eq d (b :: rest)]
      simp only [List.length_cons, Nat.add_sub_cancel]
      rw [show rest.length + 1 = rest.length + 1 from rfl,
        List.range_succ_eq_map]
      simp only [List.map_cons, List.map_map, List.getD_cons_zero,
        List.getD_cons_succ]
      refine congrArg (List.cons _) (List.map_congr_left ?_)
      intro i _
      simp [Function.comp, List.getD_cons_succ]

theorem pairsOf_length (xs : List Vec3) :
    (pairsOf xs).length = xs.length - 1 := by
  rw [pairsOf_eq ⟨0, 0, 0⟩ xs]
  simp

theorem flatMap_congr {α β : Type} {l : List α} {f g : α → List β}
    (h : ∀ a ∈ l, f a = g a) : l.flatMap f = l.flatMap g := by
  induction l with
  | nil => rfl
  | cons a rest ih =>
      simp only [List.flatMap_cons, h a (by simp),
        ih (fun x hx => h x (by simp [hx]))]

theorem fanVerts_eq (t : Vec3 → Vec3) (v0 : Vec3) (vs : List Vec3) :
    (pairsOf vs).flatMap (fun p =>
        flat3 (t v0) ++ flat3 (t p.1) ++ flat3 (t p.2)) =
      fanSpecVerts t (v0 :: vs) := by
  rw [pairsOf_eq ⟨0, 0, 0⟩ vs, List.flatMap_map]
  unfold fanSpecVerts
  simp only [List.length_cons, Nat.add_sub_cancel]
  exact flatMap_congr (fun i _ => by
    simp [List.getD_cons_zero, List.getD_cons_succ])

/-- C5: a face whose ordered loop has `n ≥ 3` vertices is fan triangulated
into exactly `n - 2` triangles `(v0, v_i, v_{i+1})` for `i = 1 .. n-2`,
each corner transformed by the local transform before being appended, with
the face normal repeated per corner and three fresh indices per triangle;
a face with `n < 3` vertices appends nothing and raises no error. -/
theorem c5_fan_triangulation (t : Vec3 → Vec3) (f : Face)
    (g : GeometryData) :
    (f.loop.length < 3 → extractFace t f g = g) ∧
    (3 ≤ f.loop.length →
      (extractFace t f g).vertices = g.vertices ++ fanSpecVerts t f.loop ∧
      (extractFace t f g).normals =
        g.normals ++ fanSpecNormals f.normal (f.loop.length - 2) ∧
      (extractFace t f g).indices =
        g.indices ++
          fanSpecIndices (g.vertices.length / 3) (f.loop.length - 2) ∧
      (extractFace t f g).indices.length =
        g.indices.length + 3 * (f.loop.length - 2)) := by
  obtain ⟨loop, nrm⟩ := f
  constructor
  · intro h
    rcases loop with _ | ⟨v0, _ | ⟨v1, _ | ⟨v2, rest⟩⟩⟩
    · rfl
    · rfl
    · rfl
    · simp at h
      omega
  · intro h
    rcases loop with _ | ⟨v0, _ | ⟨v1, _ | ⟨v2, rest⟩⟩⟩
    · simp at h
    · simp at h
    · simp at h
    · obtain ⟨hv, hn, hi⟩ := extractFanPairs_spec t v0 nrm
        (pairsOf (v1 :: v2 :: rest)) g
      have hface : extractFace t ⟨v0 :: v1 :: v2 :: rest, nrm⟩ g =
          extractFanPairs t v0 nrm (pairsOf (v1 :: v2 :: rest)) g := rfl
      have hlenps : (pairsOf (v1 :: v2 :: rest)).length = rest.length + 1 := by
        rw [pairsOf_length]
        simp
      have hlen2 : (⟨v0 :: v1 :: v2 :: rest, nrm⟩ : Face).loop.length - 2 =
          rest.length + 1 := by
        simp
      refine ⟨?_, ?_, ?_, ?_⟩
      · rw [hface, hv]
        exact congrArg (g.vertices ++ ·) (fanVerts_eq t v0 (v1 :: v2 :: rest))
      · rw [hface, hn, hlenps, hlen2]
      · rw [hface, hi, hlenps, hlen2]
      · rw [hface, hi, hlenps, hlen2]
        simp [fanSpecIndices_length]

/-- A convex quadrilateral face used by the C5 witness. -/
def c5Quad : Face :=
  ⟨[⟨0, 0, 0⟩, ⟨1, 0, 0⟩, ⟨1, 1, 0⟩, ⟨0, 1, 0⟩], ⟨0, 0, 1⟩⟩

/-- Witness for C5: a 2-vertex face appends nothing, and the quad face
yields exactly `4 - 2 = 2` triangles (6 indices). -/
theorem c5_fan_triangulation_witness :
    extractFace (fun v => v) ⟨[⟨0, 0, 0⟩, ⟨1, 0, 0⟩], ⟨0, 0, 1⟩⟩ emptyGeom =
      emptyGeom ∧
    (extractFace (fun v => v) c5Quad emptyGeom).indices.length =
      emptyGeom.indices.length + 3 * (c5Quad.loop.length - 2) := by
  exact ⟨(c5_fan_triangulation (fun v => v) _ emptyGeom).1 (by decide),
    ((c5_fan_triangulation (fun v => v) c5Quad emptyGeom).2
      (by decide)).2.2.2⟩

/-! ## Accessor / bufferView counts and pairing (C2, C3) -/

theorem accessorsAux_length : ∀ (gs : List GeometryData) (i : ℕ),
    (accessorsAux gs i).length = 3 * gs.length
  | [], _ => rfl
  | g :: rest, i => by
      simp [accessorsAux, geomAccessors, accessorsAux_length rest (i + 3)]
      omega

theorem bufferViewsAux_length : ∀ (gs : List GeometryData) (off : ℕ),
    (bufferViewsAux gs off).length = 3 * gs.length
  | [], _ => rfl
  | g :: rest, off => by
      simp [bufferViewsAux, geomBufferViews,
        bufferViewsAux_length rest (off + geomByteSize g)]
      omega

/-- The number of non-empty geometry records in the whole scene. -/
def nonemptyRecordCount (ns : List GltfNode) : ℕ :=
  ((allGeoms ns).filter (fun g => !g.vertices.isEmpty)).length

/-- Every record of a built scene is non-empty, so the filter keeps all. -/
theorem allGeoms_filter_nonempty (scale : ℚ) (entities : List SceneEntity) :
    (allGeoms (buildScene scale entities)).filter
        (fun g => !g.vertices.isEmpty) =
      allGeoms (buildScene scale entities) :=
  List.filter_eq_self.mpr (fun g hg => by
    have h := (buildScene_good scale entities g hg).1
    simpa using h)

/-- C2: for every scene built by extraction, the emitted accessors array
has exactly `3 ×` (number of non-empty geometry records in the whole
scene) entries, and the emitted bufferViews array the same number. -/
theorem c2_accessor_bufferview_counts (scale : ℚ)
    (entities : List SceneEntity) :
    (accessorsOf (buildScene scale entities)).length =
      3 * nonemptyRecordCount (buildScene scale entities) ∧
    (bufferViewsOf (buildScene scale entities)).length =
      3 * nonemptyRecordCount (buildScene scale entities) := by
  unfold accessorsOf bufferViewsOf nonemptyRecordCount
  rw [allGeoms_filter_nonempty, accessorsAux_length, bufferViewsAux_length]
  exact ⟨rfl, rfl⟩

/-- The number of components per accessor element: 3 for the `VEC3`
position/normal accessors, 1 for the `SCALAR` index accessor. -/
def componentsPerElement (a : Accessor) : ℕ :=
  if a.type = "VEC3" then 3 else 1

theorem accessorsAux_sizes : ∀ (gs : List GeometryData) (i : ℕ),
    (accessorsAux gs i).map (fun a => a.count * 4 * componentsPerElement a) =
      gs.flatMap (fun g =>
        [g.vertices.length / 3 * 4 * 3, g.vertices.length / 3 * 4 * 3,
          g.indices.length * 4 * 1])
  | [], _ => rfl
  | g :: rest, i => by
      have ih := accessorsAux_sizes rest (i + 3)
      simp only [accessorsAux, List.map_append, List.flatMap_cons]
      rw [ih]
      simp [geomAccessors, componentsPerElement]

theorem bufferViewsAux_sizes : ∀ (gs : List GeometryData) (off : ℕ),
    (bufferViewsAux gs off).map (fun b => b.byteLength) =
      gs.flatMap (fun g =>
        [g.vertices.length * 4, g.normals.length * 4,
          g.indices.length * 4])
  | [], _ => rfl
  | g :: rest, off => by
      simp [bufferViewsAux, geomBufferViews,
        bufferViewsAux_sizes rest (off + geomByteSize g)]

theorem accessorsAux_bufferview_fields : ∀ (gs : List GeometryData) (i : ℕ),
    (accessorsAux gs i).map (fun a => a.bufferView) =
      List.range' i (3 * gs.length)
  | [], _ => by simp [accessorsAux]
  | g :: rest, i => by
      have ih := accessorsAux_bufferview_fields rest (i + 3)
      have h3 : List.range' i 3 = [i, i + 1, i + 2] := by
        simp [List.range']
      have happ := List.range'_append i 3 (3 * rest.length) 1
      simp only [one_mul] at happ
      simp only [accessorsAux, List.map_append, List.length_cons]
      rw [ih, show 3 * (rest.length + 1) = 3 * rest.length + 3 by omega,
        ← happ, h3]
      simp [geomAccessors]

theorem bufferViewsAux_offsets : ∀ (gs : List GeometryData) (off : ℕ),
    (bufferViewsAux gs off).map (fun b => b.byteOffset) =
      runningOffsets ((bufferViewsAux gs off).map (fun b => b.byteLength))
        off
  | [], _ => rfl
  | g :: rest, off => by
      have ih := bufferViewsAux_offsets rest (off + geomByteSize g)
      have hacc : off + g.vertices.length * 4 + g.normals.length * 4 +
          g.indices.length * 4 = off + geomByteSize g := by
        simp [geomByteSize]
        ring
      simp only [bufferViewsAux, geomBufferViews, List.map_append,
        List.map_cons, List.map_nil, List.cons_append, List.nil_append,
        List.append_eq, runningOffsets]
      rw [hacc, ih]

/-- C3: in every built scene, each bufferView's declared byteLength equals
its paired accessor's `count × componentSize × componentsPerElement`
(pairing is positional, and indeed accessor `k` references bufferView `k`),
and the byteOffsets are exactly the running cumulative sums of all
preceding byteLengths in global traversal order. -/
theorem c3_bufferview_accessor_pairing (scale : ℚ)
    (entities : List SceneEntity) :
    (bufferViewsOf (buildScene scale entities)).map (fun b => b.byteLength) =
      (accessorsOf (buildScene scale entities)).map
        (fun a => a.count * 4 * componentsPerElement a) ∧
    (accessorsOf (buildScene scale entities)).map (fun a => a.bufferView) =
      List.range (accessorsOf (buildScene scale entities)).length ∧
    (bufferViewsOf (buildScene scale entities)).map (fun b => b.byteOffset) =
      runningOffsets
        ((bufferViewsOf (buildScene scale entities)).map
          (fun b => b.byteLength)) 0 := by
  refine ⟨?_, ?_, ?_⟩
  · unfold accessorsOf bufferViewsOf
    rw [accessorsAux_sizes, bufferViewsAux_sizes]
    refine flatMap_congr (fun g hg => ?_)
    obtain ⟨-, hn, hv, -, -⟩ :=
      And.intro (buildScene_good scale entities g hg).1
        (buildScene_good scale entities g hg).2
    have h1 : g.vertices.length * 4 = g.vertices.length / 3 * 4 * 3 := by
      omega
    have h2 : g.normals.length * 4 = g.vertices.length / 3 * 4 * 3 := by
      omega
    rw [h1, h2]
    simp
  · unfold accessorsOf
    rw [accessorsAux_bufferview_fields, accessorsAux_length,
      List.range_eq_range']
  · unfold bufferViewsOf
    exact bufferViewsAux_offsets _ 0

/-! ## Uniform scaling (C6) -/

/-- Scale the three components of a vector. -/
def scaleVec (s : ℚ) (v : Vec3) : Vec3 := ⟨v.x * s, v.y * s, v.z * s⟩

/-- The claimed effect of running with scale `s` instead of 1 on one
record: every position coordinate multiplied by `s`, the bounds corners
multiplied by `s`, and normals (as well as texcoords and indices)
untouched. -/
def scaleRecord (s : ℚ) (g : GeometryData) : GeometryData :=
  { g with
    vertices := g.vertices.map (· * s),
    minBounds := scaleVec s g.minBounds,
    maxBounds := scaleVec s g.maxBounds }

/-- The claimed effect on a whole flattened node. -/
def nodeScale (s : ℚ) (n : GltfNode) : GltfNode :=
  { n with geometries := n.geometries.map (scaleRecord s) }

theorem scaleRecord_one (g : GeometryData) : scaleRecord 1 g = g := by
  simp [scaleRecord, scaleVec]

/-- Scale the components of a coordinate triple. -/
def mul3 (s : ℚ) (p : ℚ × ℚ × ℚ) : ℚ × ℚ × ℚ :=
  (p.1 * s, p.2.1 * s, p.2.2 * s)

theorem min_mul_pos {s : ℚ} (hs : 0 < s) (a b : ℚ) :
    min (a * s) (b * s) = min a b * s := by
  rcases le_total a b with h | h
  · rw [min_eq_left h, min_eq_left (mul_le_mul_of_nonneg_right h hs.le)]
  · rw [min_eq_right h, min_eq_right (mul_le_mul_of_nonneg_right h hs.le)]

theorem max_mul_pos {s : ℚ} (hs : 0 < s) (a b : ℚ) :
    max (a * s) (b * s) = max a b * s := by
  rcases le_total a b with h | h
  · rw [max_eq_right h, max_eq_right (mul_le_mul_of_nonneg_right h hs.le)]
  · rw [max_eq_left h, max_eq_left (mul_le_mul_of_nonneg_right h hs.le)]

theorem minTriple_mul {s : ℚ} (hs : 0 < s) (p q : ℚ × ℚ × ℚ) :
    minTriple (mul3 s p) (mul3 s q) = mul3 s (minTriple p q) := by
  simp [minTriple, mul3, min_mul_pos hs]

theorem maxTriple_mul {s : ℚ} (hs : 0 < s) (p q : ℚ × ℚ × ℚ) :
    maxTriple (mul3 s p) (mul3 s q) = mul3 s (maxTriple p q) := by
  simp [maxTriple, mul3, max_mul_pos hs]

theorem triples_map_mul (s : ℚ) : ∀ xs : List ℚ,
    triples (xs.map (· * s)) = (triples xs).map (mul3 s)
  | [] => rfl
  | [_] => rfl
  | [_, _] => rfl
  | x :: y :: z :: rest => by
      simp [triples, triples_map_mul s rest, mul3]

theorem foldl_minTriple_mul {s : ℚ} (hs : 0 < s) :
    ∀ (ts : List (ℚ × ℚ × ℚ)) (t0 : ℚ × ℚ × ℚ),
      (ts.map (mul3 s)).foldl minTriple (mul3 s t0) =
        mul3 s (ts.foldl minTriple t0)
  | [], _ => rfl
  | a :: rest, t0 => by
      simp only [List.map_cons, List.foldl_cons, minTriple_mul hs]
      exact foldl_minTriple_mul hs rest (minTriple t0 a)

theorem foldl_maxTriple_mul {s : ℚ} (hs : 0 < s) :
    ∀ (ts : List (ℚ × ℚ × ℚ)) (t0 : ℚ × ℚ × ℚ),
      (ts.map (mul3 s)).foldl maxTriple (mul3 s t0) =
        mul3 s (ts.foldl maxTriple t0)
  | [], _ => rfl
  | a :: rest, t0 => by
      simp only [List.map_cons, List.foldl_cons, maxTriple_mul hs]
      exact foldl_maxTriple_mul hs rest (maxTriple t0 a)

/-- Scaling then computing bounds agrees with computing bounds then
scaling record-wise, for records whose bounds are still at their zero
defaults (as they are until `CalculateBounds` runs). -/
theorem calculateBounds_applyScale {s : ℚ} (hs : 0 < s)
    (g : GeometryData) (hmin : g.minBounds = ⟨0, 0, 0⟩)
    (hmax : g.maxBounds = ⟨0, 0, 0⟩) :
    calculateBounds (applyScale g s) =
      scaleRecord s (calculateBounds g) := by
  by_cases h1 : s = 1
  · subst h1
    rw [scaleRecord_one, show applyScale g 1 = g from by simp [applyScale]]
  · unfold applyScale
    rw [if_neg h1]
    have hmap : triples (List.map (· * s) g.vertices) =
        (triples g.vertices).map (mul3 s) := triples_map_mul s g.vertices
    cases htr : triples g.vertices with
    | nil =>
        have hm : triples (List.map (· * s) g.vertices) = [] := by
          rw [hmap, htr]
          rfl
        simp [calculateBounds, hm, htr, scaleRecord, scaleVec, hmin, hmax]
    | cons t0 ts =>
        have hm : triples (List.map (· * s) g.vertices) =
            mul3 s t0 :: ts.map (mul3 s) := by
          rw [hmap, htr]
          rfl
        simp only [calculateBounds, hm, htr]
        rw [foldl_minTriple_mul hs, foldl_maxTriple_mul hs]
        simp [scaleRecord, scaleVec, mul3]

theorem extractFanPairs_bounds (t : Vec3 → Vec3) (v0 nrm : Vec3) :
    ∀ (ps : List (Vec3 × Vec3)) (g : GeometryData),
      (extractFanPairs t v0 nrm ps g).minBounds = g.minBounds ∧
      (extractFanPairs t v0 nrm ps g).maxBounds = g.maxBounds
  | [], _ => ⟨rfl, rfl⟩
  | (a, b) :: rest, g =>
      extractFanPairs_bounds t v0 nrm rest
        (appendTriangle g (t v0) (t a) (t b) nrm)

theorem extractFace_bounds (t : Vec3 → Vec3) (f : Face) (g : GeometryData) :
    (extractFace t f g).minBounds = g.minBounds ∧
    (extractFace t f g).maxBounds = g.maxBounds := by
  unfold extractFace
  split
  · exact extractFanPairs_bounds t _ _ _ g
  · exact ⟨rfl, rfl⟩

theorem extractFaces_bounds (t : Vec3 → Vec3) :
    ∀ (fs : List Face) (g : GeometryData),
      (extractFaces t fs g).minBounds = g.minBounds ∧
      (extractFaces t fs g).maxBounds = g.maxBounds
  | [], _ => ⟨rfl, rfl⟩
  | f :: rest, g => by
      obtain ⟨h1, h2⟩ := extractFaces_bounds t rest (extractFace t f g)
      obtain ⟨h3, h4⟩ := extractFace_bounds t f g
      exact ⟨h1.trans h3, h2.trans h4⟩

theorem extractMeshSet_bounds (t : Vec3 → Vec3) :
    ∀ (ms : MeshSet) (g : GeometryData),
      (extractMeshSet t ms g).minBounds = g.minBounds ∧
      (extractMeshSet t ms g).maxBounds = g.maxBounds
  | [], _ => ⟨rfl, rfl⟩
  | m :: rest, g => by
      obtain ⟨h1, h2⟩ := extractMeshSet_bounds t rest (extractFaces t m g)
      obtain ⟨h3, h4⟩ := extractFaces_bounds t m g
      exact ⟨h1.trans h3, h2.trans h4⟩

theorem extractMeshSets_bounds (t : Vec3 → Vec3) :
    ∀ (sets : List MeshSet) (g : GeometryData),
      (extractMeshSets t sets g).minBounds = g.minBounds ∧
      (extractMeshSets t sets g).maxBounds = g.maxBounds
  | [], _ => ⟨rfl, rfl⟩
  | ms :: rest, g => by
      obtain ⟨h1, h2⟩ :=
        extractMeshSets_bounds t rest (extractMeshSet t ms g)
      obtain ⟨h3, h4⟩ := extractMeshSet_bounds t ms g
      exact ⟨h1.trans h3, h2.trans h4⟩

mutual

theorem extractGeometricItems_scale (s : ℚ) (hs : 0 < s) (t : Vec3 → Vec3) :
    ∀ (item : ItemShapeData) (acc : List GeometryData),
      extractGeometricItems s t item (acc.map (scaleRecord s)) =
        (extractGeometricItems 1 t item acc).map (scaleRecord s)
  | .mk msets mopen children, acc => by
      have hb := extractMeshSets_bounds t mopen
        (extractMeshSets t msets emptyGeom)
      have hb0 := extractMeshSets_bounds t msets emptyGeom
      have hkey : calculateBounds (applyScale (extractMeshSets t mopen
            (extractMeshSets t msets emptyGeom)) s) =
          scaleRecord s (calculateBounds (applyScale (extractMeshSets t
            mopen (extractMeshSets t msets emptyGeom)) 1)) := by
        rw [show applyScale (extractMeshSets t mopen
            (extractMeshSets t msets emptyGeom)) 1 =
          extractMeshSets t mopen (extractMeshSets t msets emptyGeom)
          from by simp [applyScale]]
        exact calculateBounds_applyScale hs _
          (hb.1.trans hb0.1) (hb.2.trans hb0.2)
      have hgeoms : (if (extractMeshSets t mopen
            (extractMeshSets t msets emptyGeom)).vertices = []
          then acc.map (scaleRecord s)
          else acc.map (scaleRecord s) ++
            [calculateBounds (applyScale (extractMeshSets t mopen
              (extractMeshSets t msets emptyGeom)) s)]) =
          (if (extractMeshSets t mopen
            (extractMeshSets t msets emptyGeom)).vertices = []
          then acc
          else acc ++ [calculateBounds (applyScale (extractMeshSets t mopen
            (extractMeshSets t msets emptyGeom)) 1)]).map
              (scaleRecord s) := by
        split
        · rfl
        · rw [hkey]
          simp
      simp only [extractGeometricItems]
      rw [hgeoms]
      exact extractItemChildren_scale s hs t children _

theorem extractItemChildren_scale (s : ℚ) (hs : 0 < s) (t : Vec3 → Vec3) :
    ∀ (l : ItemList) (acc : List GeometryData),
      extractItemChildren s t l (acc.map (scaleRecord s)) =
        (extractItemChildren 1 t l acc).map (scaleRecord s)
  | .nil, _ => rfl
  | .cons c rest, acc => by
      show extractItemChildren s t rest
          (extractGeometricItems s t c (acc.map (scaleRecord s))) = _
      rw [extractGeometricItems_scale s hs t c acc]
      exact extractItemChildren_scale s hs t rest
        (extractGeometricItems 1 t c acc)

end

mutual

theorem extractShapeData_scale (s : ℚ) (hs : 0 < s) :
    ∀ (sd : ProductShapeData) (acc : List GeometryData),
      extractShapeData s sd (acc.map (scaleRecord s)) =
        (extractShapeData 1 sd acc).map (scaleRecord s)
  | .mk t items children, acc => by
      show extractShapeChildren s children
          (extractItemChildren s t items (acc.map (scaleRecord s))) = _
      rw [extractItemChildren_scale s hs t items acc]
      exact extractShapeChildren_scale s hs children
        (extractItemChildren 1 t items acc)

theorem extractShapeChildren_scale (s : ℚ) (hs : 0 < s) :
    ∀ (l : ProductList) (acc : List GeometryData),
      extractShapeChildren s l (acc.map (scaleRecord s)) =
        (extractShapeChildren 1 l acc).map (scaleRecord s)
  | .nil, _ => rfl
  | .cons c rest, acc => by
      show extractShapeChildren s rest
          (extractShapeData s c (acc.map (scaleRecord s))) = _
      rw [extractShapeData_scale s hs c acc]
      exact extractShapeChildren_scale s hs rest (extractShapeData 1 c acc)

end

theorem buildSceneAux_scale (s : ℚ) (hs : 0 < s) :
    ∀ (es : List SceneEntity) (acc : List GltfNode),
      buildSceneAux s es (acc.map (nodeScale s)) =
        (buildSceneAux 1 es acc).map (nodeScale s)
  | [], _ => rfl
  | e :: rest, acc => by
      have hsh : extractShapeData s e.shape [] =
          (extractShapeData 1 e.shape []).map (scaleRecord s) := by
        have h := extractShapeData_scale s hs e.shape []
        simpa using h
      simp only [buildSceneAux]
      rw [hsh]
      by_cases he : extractShapeData 1 e.shape [] = []
      · rw [he]
        simp only [List.map_nil, if_pos rfl]
        exact buildSceneAux_scale s hs rest acc
      · have hne : (extractShapeData 1 e.shape []).map (scaleRecord s) ≠
            [] := by simpa using he
        rw [if_neg hne, if_neg he]
        have hacc : acc.map (nodeScale s) ++
            [GltfNode.mk e.name e.typeLabel
              ((extractShapeData 1 e.shape []).map (scaleRecord s))] =
            (acc ++ [GltfNode.mk e.name e.typeLabel
              (extractShapeData 1 e.shape [])]).map (nodeScale s) := by
          simp [nodeScale]
        rw [hacc]
        exact buildSceneAux_scale s hs rest _

/-- C6: running the conversion with scale `s > 0` yields exactly the scene
of the scale-1 run with every position coordinate multiplied by `s` and the
bounds (computed after scaling) multiplied by `s`, while normals — and
texcoords and indices — are identical in both runs. -/
theorem c6_uniform_scale (s : ℚ) (entities : List SceneEntity)
    (hs : 0 < s) :
    buildScene s entities = (buildScene 1 entities).map (nodeScale s) := by
  have h := buildSceneAux_scale s hs entities []
  simpa [buildScene] using h

/-- Witness for C6: the sample scene at scale 2. -/
theorem c6_uniform_scale_witness :
    buildScene 2 [sampleEntity] =
      (buildScene 1 [sampleEntity]).map (nodeScale 2) :=
  c6_uniform_scale 2 [sampleEntity] (by norm_num)

/-! ## Which transform reaches which geometry item (C7) -/

/-- The transform of a shape-data entry (`getTransform()`). -/
def shapeTransform : ProductShapeData → (Vec3 → Vec3)
  | .mk t _ _ => t

mutual

/-- Traversal of a whole shape subtree applying one FIXED transform `t` to
every geometry item — the behaviour the claim describes, written from the
claim's words for comparison with `extractShapeData` (which re-reads each
entry's own transform). -/
def extractShapeAllItems (scale : ℚ) (t : Vec3 → Vec3) :
    ProductShapeData → List GeometryData → List GeometryData
  | .mk _ items children, geoms =>
      extractShapeAllItemsChildren scale t children
        (extractItemChildren scale t items geoms)

/-- Child-element loop of `extractShapeAllItems`. -/
def extractShapeAllItemsChildren (scale : ℚ) (t : Vec3 → Vec3) :
    ProductList → List GeometryData → List GeometryData
  | .nil, geoms => geoms
  | .cons c rest, geoms =>
      extractShapeAllItemsChildren scale t rest
        (extractShapeAllItems scale t c geoms)

end

/-- The claim's extraction: every geometry item merged into the node —
descendants included — transformed by the single transform of the node's
own (top) shape-data entry. -/
def extractShapeDataTopOnly (scale : ℚ) (sd : ProductShapeData)
    (geoms : List GeometryData) : List GeometryData :=
  extractShapeAllItems scale (shapeTransform sd) sd geoms

/-- A shape whose top entry has the identity transform and whose child
entry carries an x/y coordinate swap and owns the sample triangle. -/
def c7Shape : ProductShapeData :=
  .mk (fun v => v) .nil
    (.cons (.mk (fun v => ⟨v.y, v.x, v.z⟩)
      (.cons sampleItem .nil) .nil) .nil)

/-- Counterexample to C7: the geometry contributed by the descendant entry
of `c7Shape` is transformed by the DESCENDANT's own transform (the x/y
swap), not by the flattened node's own (identity) transform as the claim
states: the code re-reads `getTransform()` at every recursion level. -/
theorem c7_counterexample :
    (extractShapeData 1 c7Shape []).map (fun g => g.vertices) =
      [[0, 0, 0, 0, 1, 0, 1, 0, 0]] ∧
    (extractShapeDataTopOnly 1 c7Shape []).map (fun g => g.vertices) =
      [[0, 0, 0, 1, 0, 0, 0, 1, 0]] ∧
    extractShapeData 1 c7Shape [] ≠ extractShapeDataTopOnly 1 c7Shape [] := by
  refine ⟨?_, ?_, ?_⟩
  · decide
  · decide
  · decide

mutual

/-- The uniform transform of a subtree: every entry carries `t`. -/
def sameTransform (t : Vec3 → Vec3) : ProductShapeData → Prop
  | .mk tEntry _ children => tEntry = t ∧ sameTransformList t children

/-- `sameTransform` over a list of entries. -/
def sameTransformList (t : Vec3 → Vec3) : ProductList → Prop
  | .nil => True
  | .cons c rest => sameTransform t c ∧ sameTransformList t rest

end

mutual

theorem extractShapeData_uniform (scale : ℚ) (t : Vec3 → Vec3) :
    ∀ (sd : ProductShapeData) (geoms : List GeometryData),
      sameTransform t sd →
      extractShapeData scale sd geoms = extractShapeAllItems scale t sd geoms
  | .mk tEntry items children, geoms, h => by
      obtain ⟨ht, hch⟩ := h
      subst ht
      show extractShapeChildren scale children
          (extractItemChildren scale tEntry items geoms) =
        extractShapeAllItemsChildren scale tEntry children
          (extractItemChildren scale tEntry items geoms)
      exact extractShapeChildren_uniform scale tEntry children _ hch

theorem extractShapeChildren_uniform (scale : ℚ) (t : Vec3 → Vec3) :
    ∀ (l : ProductList) (geoms : List GeometryData),
      sameTransformList t l →
      extractShapeChildren scale l geoms =
        extractShapeAllItemsChildren scale t l geoms
  | .nil, _, _ => rfl
  | .cons c rest, geoms, h => by
      obtain ⟨hc, hrest⟩ := h
      show extractShapeChildren scale rest (extractShapeData scale c geoms) =
        extractShapeAllItemsChildren scale t rest
          (extractShapeAllItems scale t c geoms)
      rw [← extractShapeData_uniform scale t c geoms hc]
      exact extractShapeChildren_uniform scale t rest _ hrest

end

/-- C7 as amended: each geometry item is transformed by the transform of
the shape-data entry that directly owns it (the item-child recursion keeps
that transform, but each descendant shape-data entry re-reads its own); the
single-top-transform behaviour of the original claim holds exactly when
every entry of the subtree carries the node's own transform. -/
theorem c7_transforms_amended (scale : ℚ) (sd : ProductShapeData)
    (geoms : List GeometryData)
    (h : sameTransform (shapeTransform sd) sd) :
    extractShapeData scale sd geoms =
      extractShapeDataTopOnly scale sd geoms :=
  extractShapeData_uniform scale (shapeTransform sd) sd geoms h

/-- The doubling transform of the C7 witness shape. -/
def c7Double (v : Vec3) : Vec3 := ⟨v.x * 2, v.y, v.z⟩

/-- A two-level shape whose entries all carry `c7Double`. -/
def c7UniformShape : ProductShapeData :=
  .mk c7Double (.cons sampleItem .nil)
    (.cons (.mk c7Double (.cons sampleItem .nil) .nil) .nil)

/-- Witness for the amended C7 on a two-level uniform-transform shape. -/
theorem c7_transforms_amended_witness :
    extractShapeData 1 c7UniformShape [] =
      extractShapeDataTopOnly 1 c7UniformShape [] :=
  c7_transforms_amended 1 c7UniformShape []
    ⟨rfl, ⟨rfl, trivial⟩, trivial⟩

end Ifc2Gltf
